import Mathlib

/-!
Verification development for the Supro repository.

The repository holds two independent utilities:

* a frame relay service (src/python/mediapipe_service.py) together with an
  older relay variant (src/python/mediapipe_processor.py): a loop that reads
  one JSON frame request per stdin line, runs an external pose detector and an
  external hand detector over the decoded pixel buffer, and prints one JSON
  landmark result per line;
* a dump utility (src/combine.py): walks a source tree, skipping an excluded
  subtree, version-control directories and junk files, and concatenates every
  remaining file into one output text file with headers, followed by a fixed
  list of extra files.

The embedding below translates the repository's own code.  External library
calls (the MediaPipe detectors, cv2.cvtColor, json.loads) are modelled as
opaque function parameters, as the spec directs ("treated as an opaque
external capability").  Machine text is modelled at the level the claims
speak about: a parsed JSON value type for request lines, and an abstract
landmark-point type P for detector output (landmark coordinates are floats
produced entirely outside this repository, and no claim computes on them).
-/

namespace Relay

/-- Parsed JSON values, the result of json.loads on an input line.  Numbers
are modelled as integers: the protocol of section 6 of the spec carries only
integer fields (width, height and the flat uint8 data samples), and every
claim quantifies over requests built from integers. -/
inductive Json where
  | null
  | bool (b : Bool)
  | num (n : Int)
  | str (s : String)
  | arr (xs : List Json)
  | obj (fields : List (String × Json))

/-- Frame result dictionary, built by process_frame in both relay variants:
a dict with exactly the two keys pose_landmarks and hand_landmarks.  P is the
abstract landmark-point type (the [lm.x, lm.y, lm.z] triples extracted from
the detector's output). -/
structure FrameResult (P : Type) where
  pose_landmarks : List P
  hand_landmarks : List (List P)
deriving DecidableEq

/-- Empty result dictionary, the fallback value both the per-frame except
branch and the run-loop error branches produce. -/
def emptyResult {P : Type} : FrameResult P :=
  { pose_landmarks := [], hand_landmarks := [] }

/-- Pixel buffer after data.reshape((height, width, 3)): the declared
dimensions together with the flat uint8 samples. -/
structure Frame where
  height : Int
  width : Int
  data : List Nat
deriving DecidableEq

/-- Opaque external detection capabilities: the long-lived MediaPipe pose and
hands handles (pose.process, hands.process), plus cv2.cvtColor used by the
processor variant.  A detector maps an image buffer to landmark structures or
none; none models a frame with no detection. -/
structure Detectors (P : Type) where
  pose : Frame → Option (List P)
  hands : Frame → Option (List (List P))
  cvt : Frame → Frame

/-- Python subscript frame_data[key]: raises TypeError when the parsed value
is not a dict and KeyError when the key is absent. -/
def getItem (j : Json) (key : String) : Except String Json :=
  match j with
  | .obj fields =>
      match fields.lookup key with
      | some v => .ok v
      | none => .error ("KeyError: " ++ key)
  | _ => .error "TypeError: value is not subscriptable"

/-- Conversion of one data sample by np.array(..., dtype=np.uint8): only an
integer in the uint8 range converts; anything else raises. -/
def toUint8 (j : Json) : Except String Nat :=
  match j with
  | .num n => if 0 ≤ n ∧ n < 256 then .ok n.toNat else .error "OverflowError"
  | _ => .error "ValueError: invalid uint8 sample"

/-- Conversion of the whole data field by np.array(..., dtype=np.uint8). -/
def toUint8Array : List Json → Except String (List Nat)
  | [] => .ok []
  | x :: xs => do
      let v ← toUint8 x
      let vs ← toUint8Array xs
      .ok (v :: vs)

/-- Requirement that the data field is a JSON array at all. -/
def asArr (j : Json) : Except String (List Json) :=
  match j with
  | .arr xs => .ok xs
  | _ => .error "ValueError: data is not an array"

/-- Requirement that a declared dimension is an integer (reshape raises a
TypeError on anything else). -/
def asInt (j : Json) : Except String Int :=
  match j with
  | .num n => .ok n
  | _ => .error "TypeError: dimension is not an integer"

/-- Reshape data.reshape((height, width, 3)), with numpy's unknown-dimension
rule: when both declared dimensions are non-negative the flat length must
equal height * width * 3 exactly; a negative dimension is treated as unknown
and inferred as length divided by the product of the known dimensions,
succeeding when that product is positive and divides the length; two negative
dimensions raise (numpy permits only one unknown dimension); every failing
case raises ValueError. -/
def reshape3 (h w : Int) (d : List Nat) : Except String Frame :=
  if 0 ≤ h ∧ 0 ≤ w then
    if (d.length : Int) = h * w * 3 then .ok ⟨h, w, d⟩
    else .error "ValueError: cannot reshape array"
  else if h < 0 ∧ w < 0 then
    .error "ValueError: can only specify one unknown dimension"
  else if h < 0 then
    if 0 < w ∧ (d.length : Int) % (w * 3) = 0 then
      .ok ⟨(d.length : Int) / (w * 3), w, d⟩
    else .error "ValueError: cannot reshape array"
  else
    if 0 < h ∧ (d.length : Int) % (h * 3) = 0 then
      .ok ⟨h, (d.length : Int) / (h * 3), d⟩
    else .error "ValueError: cannot reshape array"

/-- Body of MediaPipeService.process_frame inside its try block: extract
width, height and data from the parsed request, convert the samples to a
uint8 buffer, reshape to (height, width, 3), run both detectors over the
frame and assemble the two-key result dictionary.  Detector output none
leaves the corresponding field as the empty list, mirroring the two
truthiness guards in the source. -/
def processFrameCore {P : Type} (D : Detectors P) (j : Json) :
    Except String (FrameResult P) := do
  let wj ← getItem j "width"
  let hj ← getItem j "height"
  let dj ← getItem j "data"
  let ds ← asArr dj
  let dataArr ← toUint8Array ds
  let h ← asInt hj
  let w ← asInt wj
  let frame ← reshape3 h w dataArr
  let poseRes := D.pose frame
  let handsRes := D.hands frame
  .ok { pose_landmarks := poseRes.getD [], hand_landmarks := handsRes.getD [] }

/-- Wire form of a valid frame request line of section 6 of the spec, after
json.loads: a JSON object with integer width and height fields and a flat
integer data array. -/
def frameRequest (w h : Int) (ds : List Nat) : Json :=
  Json.obj
    [("width", Json.num w), ("height", Json.num h),
     ("data", Json.arr (ds.map fun (v : Nat) => Json.num (v : Int)))]

/-- Stub detection capability used to evaluate the model on concrete frames:
it never detects anything and leaves the buffer unchanged, one legitimate
behavior of the opaque external capability. -/
def noDetect : Detectors Unit :=
  { pose := fun _ => none, hands := fun _ => none, cvt := fun f => f }

/-- Stub detection capability that finds one pose landmark in every frame,
another legitimate behavior of the opaque external capability; used to show
a frame reaching the detectors can produce a non-empty result. -/
def oneDetect : Detectors Unit :=
  { pose := fun _ => some [()], hands := fun _ => none, cvt := fun f => f }

end Relay

namespace MediaPipeService

open Relay

/-- MediaPipeService.process_frame: the try body above with the catch-all
except branch, which logs to stderr and returns the empty two-key result. -/
def process_frame {P : Type} (D : Detectors P) (j : Json) : FrameResult P :=
  match processFrameCore D j with
  | .ok r => r
  | .error _ => { pose_landmarks := [], hand_landmarks := [] }

/-- Handling of one non-empty input line inside the run loop: json.loads the
line and process the frame; a parse failure is caught by the JSONDecodeError
branch, which emits the empty result.  The parse function models json.loads,
an external library call. -/
def processLine {P : Type} (parse : String → Except String Json)
    (D : Detectors P) (line : String) : FrameResult P :=
  match parse line with
  | .ok j => process_frame D j
  | .error _ => emptyResult

/-- MediaPipeService.run's read loop over the stdin lines: readline yields
the empty string exactly at end of stream, on which the loop breaks; every
other line is processed and answered with exactly one result line before the
next line is read. -/
def runLoop {P : Type} (parse : String → Except String Json)
    (D : Detectors P) : List String → List (FrameResult P)
  | [] => []
  | line :: rest =>
      if line = "" then []
      else processLine parse D line :: runLoop parse D rest

/-- One line of the service's stdout: the READY token printed before the
loop, or one JSON-encoded frame result. -/
inductive OutLine (P : Type) where
  | ready
  | result (r : FrameResult P)
deriving DecidableEq

/-- Entry point of mediapipe_service.py: constructing MediaPipeService may
fail (detector initialization), in which case the except branch exits with
status 1; otherwise run prints READY, drains stdin through the loop and the
process ends with status 0.  The returned pair is (stdout lines, exit code). -/
def serviceMain {P : Type} (init : Except String (Detectors P))
    (parse : String → Except String Json) (lines : List String) :
    List (OutLine P) × Nat :=
  match init with
  | .ok D => (OutLine.ready :: (runLoop parse D lines).map OutLine.result, 0)
  | .error _ => ([], 1)

end MediaPipeService

namespace MediaPipeProcessor

open Relay

/-- MediaPipeProcessor.process_frame (the older relay variant): np.frombuffer
gives the raw byte list, which is reshaped to the hardcoded (720, 1280, 3)
shape, converted BGR to RGB by the external cv2.cvtColor, and run through
both detectors.  This variant has no try/except: any failure propagates to
the caller, which the Except return value records.  (The source returns the
json.dumps serialization of the result dict; the embedding returns the dict
itself, whose two fields are what the claims inspect.) -/
def process_frame {P : Type} (D : Detectors P) (frame_data : List Nat) :
    Except String (FrameResult P) := do
  let frame ← reshape3 720 1280 frame_data
  let rgb := D.cvt frame
  let poseRes := D.pose rgb
  let handsRes := D.hands rgb
  .ok { pose_landmarks := poseRes.getD [], hand_landmarks := handsRes.getD [] }

end MediaPipeProcessor

namespace Dump

/-- On-disk state of one file as far as combine.py can observe it through
path.read_text: its bytes decode as valid UTF-8 text, or they fail UTF-8
decoding (the invalidUtf8 constructor carries the best-effort replacement
decoding data.decode with errors set to replace), or reading raises some
other exception whose message is carried by unreadable. -/
inductive FileContent where
  | text (s : String)
  | invalidUtf8 (replaced : String)
  | unreadable (err : String)
deriving DecidableEq

/-- One regular file under the source root, as os.walk reaches it: the names
of the directories on the path from the root down to the file (dirs), the
file name itself, and the file's content state. -/
structure FileEntry where
  dirs : List String
  name : String
  content : FileContent
deriving DecidableEq

/-- read_file_as_text from combine.py: valid text is returned as is, invalid
UTF-8 is decoded with replacement characters instead of aborting, and any
other read failure yields the inline error marker string. -/
def read_file_as_text (c : FileContent) : String :=
  match c with
  | .text s => s
  | .invalidUtf8 r => r
  | .unreadable e => "<<ERROR READING FILE: " ++ e ++ ">>"

/-- Test that one path (a list of components from the filesystem root) lies
at or below another: models both the dirnames pruning against the resolved
exclude path and the guard current == exclude_dir or exclude_dir in
current.parents. -/
def underPath : List String → List String → Bool
  | [], _ => true
  | _ :: _, [] => false
  | e :: es, d :: ds => e = d && underPath es ds

/-- Character-list prefix test by code point, the comparison Python's
str.startswith performs. -/
def charsPre : List Char → List Char → Bool
  | [], _ => true
  | _ :: _, [] => false
  | p :: ps, c :: cs => decide (p.toNat = c.toNat) && charsPre ps cs

/-- Python d.startswith(pre). -/
def startswith (d pre : String) : Bool := charsPre pre.data d.data

/-- Filter os.walk applies through combine.py's iter_files to one candidate
file: it is dropped when its directory path lies inside the resolved exclude
path, when any directory on its path has a name starting with ".git"
(d.startswith(".git") in the dirnames pruning), or when the file itself is
the junk name ".DS_Store".  srcDir is the absolute component path of the
resolved source root, exclude the absolute component path of the resolved
exclude directory, and f.dirs is relative to srcDir. -/
def keptEntry (srcDir exclude : List String) (f : FileEntry) : Bool :=
  !underPath exclude (srcDir ++ f.dirs) &&
  f.dirs.all (fun d => !startswith d ".git") &&
  (f.name != ".DS_Store")

/-- iter_files from combine.py over a walk enumeration: os.walk yields the
files of the tree in an order the operating system chooses, modelled by an
arbitrary list enumeration of the tree's files; iter_files keeps exactly the
entries the pruning and junk rules keep. -/
def iter_files (srcDir exclude : List String) (walk : List FileEntry) :
    List FileEntry :=
  walk.filter (keptEntry srcDir exclude)

/-- Path of a file relative to the source root, as p.relative_to(src_dir)
renders it in the FILE header. -/
def relString (f : FileEntry) : String :=
  String.intercalate "/" (f.dirs ++ [f.name])

/-- Rendering of an absolute component path as the POSIX path string. -/
def pathString (comps : List String) : String :=
  "/" ++ String.intercalate "/" comps

/-- Lexicographic comparison of character lists by code point, the order in
which Python compares the path strings of Path objects when sorted() runs
over iter_files' output. -/
def strLe : List Char → List Char → Bool
  | [], _ => true
  | _ :: _, [] => false
  | a :: as, b :: bs =>
      decide (a.toNat < b.toNat) || (decide (a.toNat = b.toNat) && strLe as bs)

/-- Order on file entries used by sorted(): all entries share the resolved
source root as path prefix, so comparing the absolute path strings compares
the relative path strings. -/
def entryLe (a b : FileEntry) : Prop :=
  strLe (relString a).data (relString b).data = true

instance : DecidableRel entryLe :=
  fun a b => instDecidableEqBool (strLe (relString a).data (relString b).data) true

/-- Strengthening of entryLe by distinct relative path strings; on a walk
without duplicate paths (a real directory tree) the sorted output is pairwise
in this relation, which is antisymmetric. -/
def entryLeNe (a b : FileEntry) : Prop :=
  entryLe a b ∧ relString a ≠ relString b

instance : IsTrans FileEntry entryLe :=
  ⟨by
    have key : ∀ x y z : List Char,
        strLe x y = true → strLe y z = true → strLe x z = true := by
      intro x
      induction x with
      | nil => intro y z h1 h2; rfl
      | cons a as ih =>
          intro y z h1 h2
          cases y with
          | nil => simp [strLe] at h1
          | cons b bs =>
              cases z with
              | nil => simp [strLe] at h2
              | cons c cs =>
                  simp only [strLe, Bool.or_eq_true, Bool.and_eq_true,
                    decide_eq_true_eq] at h1 h2 ⊢
                  rcases h1 with h1 | ⟨h1e, h1r⟩
                  · rcases h2 with h2 | ⟨h2e, h2r⟩
                    · left; omega
                    · left; omega
                  · rcases h2 with h2 | ⟨h2e, h2r⟩
                    · left; omega
                    · right; exact ⟨by omega, ih bs cs h1r h2r⟩
    intro a b c h1 h2
    exact key (relString a).data (relString b).data (relString c).data h1 h2⟩

instance : IsTotal FileEntry entryLe :=
  ⟨by
    have key : ∀ x y : List Char, strLe x y = true ∨ strLe y x = true := by
      intro x
      induction x with
      | nil => intro y; left; rfl
      | cons a as ih =>
          intro y
          cases y with
          | nil => right; rfl
          | cons b bs =>
              simp only [strLe, Bool.or_eq_true, Bool.and_eq_true,
                decide_eq_true_eq]
              rcases Nat.lt_trichotomy a.toNat b.toNat with h | h | h
              · left; left; exact h
              · rcases ih bs with hr | hr
                · left; right; exact ⟨h, hr⟩
                · right; right; exact ⟨h.symm, hr⟩
              · right; left; exact h
    intro a b
    exact key (relString a).data (relString b).data⟩

instance : IsAntisymm FileEntry entryLeNe :=
  ⟨by
    have key : ∀ x y : List Char, strLe x y = true → strLe y x = true → x = y := by
      intro x
      induction x with
      | nil =>
          intro y h1 h2
          cases y with
          | nil => rfl
          | cons b bs => simp [strLe] at h2
      | cons a as ih =>
          intro y h1 h2
          cases y with
          | nil => simp [strLe] at h1
          | cons b bs =>
              simp only [strLe, Bool.or_eq_true, Bool.and_eq_true,
                decide_eq_true_eq] at h1 h2
              rcases h1 with h1 | ⟨h1e, h1r⟩
              · rcases h2 with h2 | ⟨h2e, h2r⟩
                · omega
                · omega
              · rcases h2 with h2 | ⟨h2e, h2r⟩
                · omega
                · have hab : a = b := Char.eq_of_val_eq (UInt32.ext h1e)
                  rw [hab, ih bs h1r h2r]
    intro a b h1 h2
    exact absurd (String.ext (key _ _ h1.1 h2.1)) h1.2⟩

/-- files = sorted(iter_files(src_dir, exclude_dir)) in combine.py.
insertionSort models Python's sorted(): both are stable sorts over the same
total preorder, hence extensionally equal. -/
def sortedFiles (srcDir exclude : List String) (walk : List FileEntry) :
    List FileEntry :=
  List.insertionSort entryLe (iter_files srcDir exclude walk)

/-- Bar of 80 equality signs written around each file header. -/
def eqBar : String := String.mk (List.replicate 80 '=')

/-- Bar of 80 hash signs written around the extra-files banner. -/
def hashBar : String := String.mk (List.replicate 80 '#')

/-- Text the loop body of write_combined_output writes for one in-tree file:
bar, FILE header with the relative path, bar, blank line, content, newline. -/
def fileBlock (f : FileEntry) : String :=
  "\n" ++ eqBar ++ "\n" ++ "FILE: " ++ relString f ++ "\n" ++ eqBar ++ "\n\n"
    ++ read_file_as_text f.content ++ "\n"

/-- One extra file to append: its resolved absolute component path and its
content state. -/
structure ExtraFile where
  path : List String
  content : FileContent
deriving DecidableEq

/-- Text written for one extra file: the same bars with an EXTRA FILE header
naming the file by absolute path. -/
def extraBlock (x : ExtraFile) : String :=
  "\n" ++ eqBar ++ "\n" ++ "EXTRA FILE: " ++ pathString x.path ++ "\n" ++ eqBar
    ++ "\n\n" ++ read_file_as_text x.content ++ "\n"

/-- Banner written once before the extra files when the extra list is
non-empty. -/
def extrasBanner : String :=
  "\n" ++ hashBar ++ "\n" ++ "# EXTRA FILES (appended after source tree)\n"
    ++ hashBar ++ "\n\n"

/-- Two header comment lines written at the top of the output file. -/
def dumpHeader (srcDir exclude : List String) : String :=
  "# Combined dump of " ++ pathString srcDir ++ "\n" ++ "# Excluding: "
    ++ pathString exclude ++ "\n\n"

/-- Concatenation of a list of written chunks, in order. -/
def concatBlocks : List String → String
  | [] => ""
  | s :: rest => s ++ concatBlocks rest

/-- Observable outcome of one run of write_combined_output: the text of the
output file and the one-line summary printed to stdout. -/
structure DumpResult where
  outText : String
  stdoutLine : String
deriving DecidableEq

/-- write_combined_output from combine.py: sort the surviving files, write
the header, then each file section while counting, then (only when the extra
list is non-empty, matching the truthiness test on extra_paths) the banner
and one section per extra file; finally print the summary line with the
in-tree count and the extras count. -/
def write_combined_output (srcDir exclude : List String) (outFile : String)
    (walk : List FileEntry) (extras : List ExtraFile) : DumpResult :=
  let files := sortedFiles srcDir exclude walk
  let body := files.foldl
    (fun (acc : String × Nat) p => (acc.1 ++ fileBlock p, acc.2 + 1))
    (dumpHeader srcDir exclude, 0)
  let fullText :=
    if extras.isEmpty then body.1
    else body.1 ++ extrasBanner ++ concatBlocks (extras.map extraBlock)
  { outText := fullText,
    stdoutLine := "Wrote " ++ toString body.2 ++ " in-tree files + "
      ++ toString extras.length ++ " extras into: " ++ outFile }

end Dump

/-! ### Helper lemmas for the frame relay service -/

theorem toUint8_ofNat (a : Nat) (ha : a < 256) :
    Relay.toUint8 (Relay.Json.num (a : Int)) = Except.ok a := by
  simp only [Relay.toUint8]
  rw [if_pos ⟨Int.natCast_nonneg a, by exact_mod_cast ha⟩]
  simp

theorem toUint8Array_ofNat (ds : List Nat) (hv : ∀ v ∈ ds, v < 256) :
    Relay.toUint8Array (ds.map fun (v : Nat) => Relay.Json.num (v : Int))
      = Except.ok ds := by
  induction ds with
  | nil => rfl
  | cons a as ih =>
      have ha : a < 256 := hv a (by simp)
      have ih2 := ih fun v hmem => hv v (by simp [hmem])
      simp only [List.map_cons, Relay.toUint8Array, toUint8_ofNat a ha, ih2]
      try rfl

theorem processFrameCore_frameRequest {P : Type} (D : Relay.Detectors P)
    (w h : Int) (ds : List Nat) (hv : ∀ v ∈ ds, v < 256) :
    Relay.processFrameCore D (Relay.frameRequest w h ds)
      = match Relay.reshape3 h w ds with
        | .ok frame =>
            .ok { pose_landmarks := (D.pose frame).getD [],
                  hand_landmarks := (D.hands frame).getD [] }
        | .error e => .error e := by
  have harr := toUint8Array_ofNat ds hv
  show (Relay.toUint8Array (ds.map fun (v : Nat) => Relay.Json.num (v : Int))).bind _
      = _
  rw [harr]
  show (Relay.reshape3 h w ds).bind _ = _
  cases hr : Relay.reshape3 h w ds <;> simp [Except.bind]

/-! ### Claims about the frame relay service -/

/-- C1 counterexample: the claim requires both relay variants to answer every
valid frame request (width W, height H, data of length W*H*3) with one result
and no escaping exception, but MediaPipeProcessor.process_frame reshapes to a
hardcoded (720, 1280, 3) buffer with no exception handler: the valid request
W=1, H=1 whose data has length 1*1*3 = 3 makes it raise a reshape error. -/
theorem c1_counterexample :
    (List.replicate 3 0).length = 1 * 1 * 3 ∧
    MediaPipeProcessor.process_frame Relay.noDetect (List.replicate 3 0)
      = Except.error "ValueError: cannot reshape array" := by
  exact ⟨rfl, rfl⟩

/-- C1 (amended): the service variant answers every valid frame request
(width W ≥ 0, height H ≥ 0, in-range data of length exactly W*H*3) with
exactly one result object carrying both landmark fields and never raises; the
processor variant does so exactly for buffers of the hardcoded length
720*1280*3 and raises a reshape error on every other buffer length. -/
theorem c1_amended_process_frame {P : Type} (D : Relay.Detectors P)
    (w h : Int) (ds : List Nat) (hw : 0 ≤ w) (hh : 0 ≤ h)
    (hlen : (ds.length : Int) = w * h * 3) (hv : ∀ v ∈ ds, v < 256) :
    MediaPipeService.process_frame D (Relay.frameRequest w h ds)
      = { pose_landmarks := (D.pose ⟨h, w, ds⟩).getD [],
          hand_landmarks := (D.hands ⟨h, w, ds⟩).getD [] } ∧
    (∀ buf : List Nat, (buf.length : Int) = 720 * 1280 * 3 →
      MediaPipeProcessor.process_frame D buf
        = Except.ok { pose_landmarks := (D.pose (D.cvt ⟨720, 1280, buf⟩)).getD [],
                      hand_landmarks := (D.hands (D.cvt ⟨720, 1280, buf⟩)).getD [] }) ∧
    (∀ buf : List Nat, (buf.length : Int) ≠ 720 * 1280 * 3 →
      MediaPipeProcessor.process_frame D buf
        = Except.error "ValueError: cannot reshape array") := by
  refine ⟨?_, ?_, ?_⟩
  · have hcore := processFrameCore_frameRequest D w h ds hv
    have hres : Relay.reshape3 h w ds = Except.ok ⟨h, w, ds⟩ := by
      unfold Relay.reshape3
      rw [if_pos ⟨hh, hw⟩,
        if_pos (show (ds.length : Int) = h * w * 3 by rw [hlen]; ring)]
    simp [MediaPipeService.process_frame, hcore, hres]
  · intro buf hb
    have hres : Relay.reshape3 720 1280 buf = Except.ok ⟨720, 1280, buf⟩ := by
      unfold Relay.reshape3
      rw [if_pos ⟨by norm_num, by norm_num⟩, if_pos hb]
    simp only [MediaPipeProcessor.process_frame, hres]
    rfl
  · intro buf hb
    have hres : Relay.reshape3 720 1280 buf
        = Except.error "ValueError: cannot reshape array" := by
      unfold Relay.reshape3
      rw [if_pos ⟨by norm_num, by norm_num⟩, if_neg hb]
    simp only [MediaPipeProcessor.process_frame, hres]
    rfl

/-- Witness for c1_amended_process_frame: a concrete valid 1 x 1 request to
the service variant, and a concrete buffer of the hardcoded length for the
processor variant, both answered with the empty result of the stub
detector. -/
theorem c1_amended_witness :
    MediaPipeService.process_frame Relay.noDetect (Relay.frameRequest 1 1 [0, 0, 0])
        = Relay.emptyResult ∧
    MediaPipeProcessor.process_frame Relay.noDetect (List.replicate (720 * 1280 * 3) 0)
        = Except.ok Relay.emptyResult := by
  have h := c1_amended_process_frame Relay.noDetect 1 1 [0, 0, 0] (by decide)
    (by decide) (by decide) (by decide)
  constructor
  · rw [h.1]; rfl
  · have h2 := h.2.1 (List.replicate (720 * 1280 * 3) 0)
      (by rw [List.length_replicate]; norm_num)
    rw [h2]; rfl

/-- C2 counterexample: the claim covers every parsed request whose data
length differs from width*height*3, but numpy's reshape treats a negative
declared dimension as an unknown dimension to infer: the request width=1,
height=-1 with three samples has length 3 which differs from 1*(-1)*3, yet
the reshape infers height 1, both detectors run on the frame, and the service
emits the (here non-empty) detection result, not the empty-result line. -/
theorem c2_counterexample :
    ((List.length [0, 0, 0] : Int) ≠ 1 * (-1) * 3) ∧
    MediaPipeService.runLoop
        (fun _ => Except.ok (Relay.frameRequest 1 (-1) [0, 0, 0]))
        Relay.oneDetect ["line"]
      = [{ pose_landmarks := [()], hand_landmarks := [] }] ∧
    ({ pose_landmarks := [()], hand_landmarks := [] } : Relay.FrameResult Unit)
      ≠ Relay.emptyResult := by
  exact ⟨by decide, by decide, by decide⟩

/-- C2 (amended): a line that fails to parse as JSON makes the service emit
exactly one empty-result line and continue with the next line; so does a line
that parses to a frame request with non-negative declared dimensions whose
data length differs from width*height*3 (a negative declared dimension is
instead treated by the reshape as an unknown dimension to infer, and can
yield a real detection result); neither error is fatal. -/
theorem c2_amended_empty_result {P : Type}
    (parse : String → Except String Relay.Json) (D : Relay.Detectors P)
    (line : String) (rest : List String) (hl : line ≠ "") :
    ((∃ e, parse line = Except.error e) →
      MediaPipeService.runLoop parse D (line :: rest)
        = Relay.emptyResult :: MediaPipeService.runLoop parse D rest) ∧
    (∀ (w h : Int) (ds : List Nat),
      parse line = Except.ok (Relay.frameRequest w h ds) →
      0 ≤ w → 0 ≤ h →
      (∀ v ∈ ds, v < 256) → (ds.length : Int) ≠ w * h * 3 →
      MediaPipeService.runLoop parse D (line :: rest)
        = Relay.emptyResult :: MediaPipeService.runLoop parse D rest) := by
  have hstep : MediaPipeService.runLoop parse D (line :: rest)
      = MediaPipeService.processLine parse D line
          :: MediaPipeService.runLoop parse D rest := by
    simp [MediaPipeService.runLoop, hl]
  constructor
  · rintro ⟨e, he⟩
    rw [hstep]
    simp [MediaPipeService.processLine, he]
  · intro w h ds hp hw hh hv hne
    rw [hstep]
    have hcore := processFrameCore_frameRequest D w h ds hv
    have hres : Relay.reshape3 h w ds
        = Except.error "ValueError: cannot reshape array" := by
      unfold Relay.reshape3
      rw [if_pos ⟨hh, hw⟩, if_neg (fun hc => hne (by rw [hc]; ring))]
    simp [MediaPipeService.processLine, hp, MediaPipeService.process_frame,
      hcore, hres, Relay.emptyResult]

/-- Witness for c2_amended_empty_result: a concrete stream of one
unparseable line followed by one length-mismatched request (1 x 1 with four
samples); both answers are the empty result. -/
theorem c2_witness :
    MediaPipeService.runLoop
        (fun s => if s = "bad" then Except.error "Expecting value"
          else Except.ok (Relay.frameRequest 1 1 [0, 0, 0, 0]))
        Relay.noDetect ["bad", "x"]
      = [Relay.emptyResult, Relay.emptyResult] := by
  have h1 := c2_amended_empty_result
    (fun s => if s = "bad" then Except.error "Expecting value"
      else Except.ok (Relay.frameRequest 1 1 [0, 0, 0, 0]))
    Relay.noDetect "bad" ["x"] (by decide)
  have h2 := c2_amended_empty_result
    (fun s => if s = "bad" then Except.error "Expecting value"
      else Except.ok (Relay.frameRequest 1 1 [0, 0, 0, 0]))
    Relay.noDetect "x" [] (by decide)
  rw [h1.1 ⟨"Expecting value", by rfl⟩,
    h2.2 1 1 [0, 0, 0, 0] (by rfl) (by decide) (by decide) (by decide) (by decide)]
  rfl

/-- C3: for any finite stream of well-formed input lines the loop emits
exactly one result per line, each line's result being the processing of that
very line in the same position, so output count equals input count and order
is preserved; the loop is sequential by construction (each line's result is
produced before the recursive call consumes the rest of the stream). -/
theorem c3_one_result_per_line {P : Type}
    (parse : String → Except String Relay.Json) (D : Relay.Detectors P)
    (lines : List String) (hl : ∀ l ∈ lines, l ≠ "") :
    MediaPipeService.runLoop parse D lines
        = lines.map (MediaPipeService.processLine parse D) ∧
    (MediaPipeService.runLoop parse D lines).length = lines.length := by
  have hmap : MediaPipeService.runLoop parse D lines
      = lines.map (MediaPipeService.processLine parse D) := by
    induction lines with
    | nil => rfl
    | cons a as ih =>
        have ha : a ≠ "" := hl a (by simp)
        have ih2 := ih fun l hm => hl l (by simp [hm])
        simp [MediaPipeService.runLoop, ha, ih2]
  exact ⟨hmap, by rw [hmap]; simp⟩

/-- Witness for c3_one_result_per_line: three concrete unparseable lines give
three results, in order. -/
theorem c3_witness :
    MediaPipeService.runLoop (fun _ => Except.error "Expecting value")
        Relay.noDetect ["a", "b", "c"]
      = (["a", "b", "c"]).map
          (MediaPipeService.processLine (fun _ => Except.error "Expecting value")
            Relay.noDetect) :=
  (c3_one_result_per_line (fun _ => Except.error "Expecting value")
    Relay.noDetect ["a", "b", "c"] (by decide)).1

/-- C4: end of the input stream (an exhausted stream, or readline returning
the empty string) terminates the read loop without a further result line and
the process exits with status 0; a failed initialization of the detection
capability exits with the non-zero status 1. -/
theorem c4_shutdown_and_exit_codes {P : Type}
    (parse : String → Except String Relay.Json) (D : Relay.Detectors P)
    (lines rest : List String) (e : String) :
    MediaPipeService.serviceMain (Except.ok D) parse []
        = ([MediaPipeService.OutLine.ready], 0) ∧
    MediaPipeService.runLoop parse D ("" :: rest) = [] ∧
    (MediaPipeService.serviceMain (Except.ok D) parse lines).2 = 0 ∧
    @MediaPipeService.serviceMain P (Except.error e) parse lines = ([], 1) ∧
    (1 : Nat) ≠ 0 := by
  exact ⟨rfl, rfl, rfl, rfl, by decide⟩

/-- C9: MediaPipeService.process_frame is total: for every parsed input value
it returns a dictionary with exactly the two landmark fields, and on a
non-dictionary input, a dictionary missing the keys, and a request whose
dimensions make the reshape impossible it returns the empty result instead of
propagating the exception. -/
theorem c9_process_frame_total {P : Type} (D : Relay.Detectors P)
    (j : Relay.Json) :
    (∃ p hl, MediaPipeService.process_frame D j
        = { pose_landmarks := p, hand_landmarks := hl }) ∧
    MediaPipeService.process_frame D (Relay.Json.num 3) = Relay.emptyResult ∧
    MediaPipeService.process_frame D (Relay.Json.obj []) = Relay.emptyResult ∧
    MediaPipeService.process_frame D (Relay.frameRequest 2 2 [0, 0, 0])
        = Relay.emptyResult := by
  refine ⟨?_, rfl, rfl, rfl⟩
  cases hcore : Relay.processFrameCore D j with
  | ok r =>
      exact ⟨r.pose_landmarks, r.hand_landmarks,
        by simp [MediaPipeService.process_frame, hcore]⟩
  | error e =>
      exact ⟨[], [],
        by simp [MediaPipeService.process_frame, hcore, Relay.emptyResult]⟩

/-! ### Helper lemmas for the dump utility -/

theorem foldl_fileBlocks (files : List Dump.FileEntry) (s : String) (n : Nat) :
    files.foldl (fun (acc : String × Nat) p => (acc.1 ++ Dump.fileBlock p, acc.2 + 1))
        (s, n)
      = (s ++ Dump.concatBlocks (files.map Dump.fileBlock), n + files.length) := by
  induction files generalizing s n with
  | nil => simp [Dump.concatBlocks]
  | cons f fs ih =>
      simp only [List.foldl_cons, List.map_cons, ih, Dump.concatBlocks,
        List.length_cons, Prod.mk.injEq]
      exact ⟨by rw [String.append_assoc], by omega⟩

theorem write_combined_output_outText (srcDir exclude : List String)
    (outFile : String) (walk : List Dump.FileEntry)
    (extras : List Dump.ExtraFile) :
    (Dump.write_combined_output srcDir exclude outFile walk extras).outText
      = Dump.dumpHeader srcDir exclude
        ++ Dump.concatBlocks
            ((Dump.sortedFiles srcDir exclude walk).map Dump.fileBlock)
        ++ (if extras.isEmpty then ""
            else Dump.extrasBanner
              ++ Dump.concatBlocks (extras.map Dump.extraBlock)) := by
  simp only [Dump.write_combined_output, foldl_fileBlocks]
  by_cases he : extras.isEmpty
  · simp [he]
  · simp [he, String.append_assoc]

theorem write_combined_output_stdout (srcDir exclude : List String)
    (outFile : String) (walk : List Dump.FileEntry)
    (extras : List Dump.ExtraFile) :
    (Dump.write_combined_output srcDir exclude outFile walk extras).stdoutLine
      = "Wrote " ++ toString (Dump.sortedFiles srcDir exclude walk).length
        ++ " in-tree files + " ++ toString extras.length ++ " extras into: "
        ++ outFile := by
  simp only [Dump.write_combined_output, foldl_fileBlocks, Nat.zero_add]

theorem mem_sortedFiles (srcDir exclude : List String)
    (walk : List Dump.FileEntry) (f : Dump.FileEntry) :
    f ∈ Dump.sortedFiles srcDir exclude walk
      ↔ f ∈ walk ∧ Dump.keptEntry srcDir exclude f = true := by
  unfold Dump.sortedFiles Dump.iter_files
  rw [(List.perm_insertionSort Dump.entryLe _).mem_iff, List.mem_filter]

theorem sortedFiles_sorted (srcDir exclude : List String)
    (walk : List Dump.FileEntry) :
    List.Sorted Dump.entryLe (Dump.sortedFiles srcDir exclude walk) :=
  List.sorted_insertionSort Dump.entryLe _

theorem keptEntry_iff (srcDir exclude : List String) (f : Dump.FileEntry) :
    Dump.keptEntry srcDir exclude f = true
      ↔ Dump.underPath exclude (srcDir ++ f.dirs) = false
        ∧ (∀ d ∈ f.dirs, Dump.startswith d ".git" = false)
        ∧ f.name ≠ ".DS_Store" := by
  simp [Dump.keptEntry, Bool.and_eq_true, Bool.not_eq_true', List.all_eq_true,
    bne_iff_ne, and_assoc]

/-! ### Claims about the dump utility -/

/-- C5 counterexample: the claim admits every file that is outside the
excluded subtree and is not a junk entry, but the code also prunes every
directory whose name starts with ".git": in a tree holding a.txt and
.github/x.txt with exclude-dir bin, the file x.txt is outside the excluded
subtree and is not named .DS_Store, yet the dump contains no section for
it. -/
theorem c5_counterexample :
    Dump.underPath ["r", "bin"] (["r"] ++ [".github"]) = false ∧
    (⟨[".github"], "x.txt", Dump.FileContent.text "X"⟩ : Dump.FileEntry).name
        ≠ ".DS_Store" ∧
    Dump.sortedFiles ["r"] ["r", "bin"]
        [⟨[], "a.txt", Dump.FileContent.text "A"⟩,
         ⟨[".github"], "x.txt", Dump.FileContent.text "X"⟩]
      = [⟨[], "a.txt", Dump.FileContent.text "A"⟩] := by
  exact ⟨by decide, by decide, by decide⟩

/-- C5 (amended): the output contains a header and content section for
exactly the walked files that are outside the excluded subtree, lie beneath
no directory whose name starts with ".git", and are not named .DS_Store, in
sorted relative-path order, and contains no section for any other file; on
the example tree with a.txt, sub/b.txt and bin/c.txt with exclude-dir bin,
exactly a.txt and sub/b.txt appear, in sorted order. -/
theorem c5_amended_sections (srcDir exclude : List String)
    (walk : List Dump.FileEntry) (f : Dump.FileEntry) (outFile : String)
    (extras : List Dump.ExtraFile) :
    (f ∈ Dump.sortedFiles srcDir exclude walk
      ↔ f ∈ walk ∧ Dump.underPath exclude (srcDir ++ f.dirs) = false
          ∧ (∀ d ∈ f.dirs, Dump.startswith d ".git" = false)
          ∧ f.name ≠ ".DS_Store") ∧
    List.Sorted Dump.entryLe (Dump.sortedFiles srcDir exclude walk) ∧
    (Dump.write_combined_output srcDir exclude outFile walk extras).outText
      = Dump.dumpHeader srcDir exclude
        ++ Dump.concatBlocks
            ((Dump.sortedFiles srcDir exclude walk).map Dump.fileBlock)
        ++ (if extras.isEmpty then ""
            else Dump.extrasBanner
              ++ Dump.concatBlocks (extras.map Dump.extraBlock)) ∧
    Dump.sortedFiles ["r"] ["r", "bin"]
        [⟨[], "a.txt", Dump.FileContent.text "A"⟩,
         ⟨["sub"], "b.txt", Dump.FileContent.text "B"⟩,
         ⟨["bin"], "c.txt", Dump.FileContent.text "C"⟩]
      = [⟨[], "a.txt", Dump.FileContent.text "A"⟩,
         ⟨["sub"], "b.txt", Dump.FileContent.text "B"⟩] := by
  refine ⟨?_, sortedFiles_sorted srcDir exclude walk,
    write_combined_output_outText srcDir exclude outFile walk extras, by decide⟩
  rw [mem_sortedFiles, keptEntry_iff]

/-- C6: the dump is deterministic: two runs whose walks enumerate the same
tree (same file entries, possibly in a different traversal order, with
distinct paths as in a real file system) produce identical output files and
summary lines, because the file list is sorted before iteration. -/
theorem c6_deterministic_output (srcDir exclude : List String)
    (outFile : String) (walk1 walk2 : List Dump.FileEntry)
    (extras : List Dump.ExtraFile) (hperm : walk1.Perm walk2)
    (hnd : (walk1.map Dump.relString).Nodup) :
    Dump.write_combined_output srcDir exclude outFile walk1 extras
      = Dump.write_combined_output srcDir exclude outFile walk2 extras := by
  have hp : (Dump.sortedFiles srcDir exclude walk1).Perm
      (Dump.sortedFiles srcDir exclude walk2) := by
    unfold Dump.sortedFiles Dump.iter_files
    exact (List.perm_insertionSort _ _).trans
      ((hperm.filter _).trans (List.perm_insertionSort _ _).symm)
  have hnd1 : ((Dump.sortedFiles srcDir exclude walk1).map Dump.relString).Nodup := by
    unfold Dump.sortedFiles Dump.iter_files
    exact ((List.perm_insertionSort _ _).map _).symm.nodup
      (hnd.sublist ((List.filter_sublist walk1).map Dump.relString))
  have hnd2 : ((Dump.sortedFiles srcDir exclude walk2).map Dump.relString).Nodup := by
    unfold Dump.sortedFiles Dump.iter_files
    exact ((List.perm_insertionSort _ _).map _).symm.nodup
      (((hperm.map Dump.relString).nodup hnd).sublist
        ((List.filter_sublist walk2).map Dump.relString))
  have hpairNe : ∀ (l : List Dump.FileEntry),
      (l.map Dump.relString).Nodup →
      List.Pairwise (fun a b => Dump.relString a ≠ Dump.relString b) l := by
    intro l hl
    unfold List.Nodup at hl
    rw [List.pairwise_map] at hl
    exact hl
  have hpair1 : List.Pairwise Dump.entryLeNe
      (Dump.sortedFiles srcDir exclude walk1) :=
    ((sortedFiles_sorted srcDir exclude walk1).and
      (hpairNe _ hnd1)).imp fun h => h
  have hpair2 : List.Pairwise Dump.entryLeNe
      (Dump.sortedFiles srcDir exclude walk2) :=
    ((sortedFiles_sorted srcDir exclude walk2).and
      (hpairNe _ hnd2)).imp fun h => h
  have hsorted : Dump.sortedFiles srcDir exclude walk1
      = Dump.sortedFiles srcDir exclude walk2 :=
    List.eq_of_perm_of_sorted hp hpair1 hpair2
  unfold Dump.write_combined_output
  rw [hsorted]

/-- Witness for c6_deterministic_output: two enumerations of the same
two-file tree, in opposite orders, produce equal dump results. -/
theorem c6_witness :
    Dump.write_combined_output ["r"] ["r", "bin"] "/r/_all_source.txt"
        [⟨[], "a.txt", Dump.FileContent.text "A"⟩,
         ⟨[], "b.txt", Dump.FileContent.text "B"⟩] []
      = Dump.write_combined_output ["r"] ["r", "bin"] "/r/_all_source.txt"
        [⟨[], "b.txt", Dump.FileContent.text "B"⟩,
         ⟨[], "a.txt", Dump.FileContent.text "A"⟩] [] :=
  c6_deterministic_output ["r"] ["r", "bin"] "/r/_all_source.txt"
    [⟨[], "a.txt", Dump.FileContent.text "A"⟩,
     ⟨[], "b.txt", Dump.FileContent.text "B"⟩]
    [⟨[], "b.txt", Dump.FileContent.text "B"⟩,
     ⟨[], "a.txt", Dump.FileContent.text "A"⟩] []
    (List.Perm.swap (⟨[], "b.txt", Dump.FileContent.text "B"⟩ : Dump.FileEntry)
      (⟨[], "a.txt", Dump.FileContent.text "A"⟩ : Dump.FileEntry) [])
    (by decide)

/-- C7: a file whose bytes are invalid under UTF-8 is still dumped (its
section carries the replacement-decoded text rather than aborting the run)
and is still counted in the summary; a file unreadable for any other reason
gets the visible inline error marker as its section content, and the run
completes with its summary line. -/
theorem c7_unreadable_files_still_dumped (srcDir exclude : List String)
    (outFile : String) (walk : List Dump.FileEntry)
    (extras : List Dump.ExtraFile) (f g : Dump.FileEntry) (r e : String)
    (hfw : f ∈ walk) (hfk : Dump.keptEntry srcDir exclude f = true)
    (hfc : f.content = Dump.FileContent.invalidUtf8 r)
    (hgw : g ∈ walk) (hgk : Dump.keptEntry srcDir exclude g = true)
    (hgc : g.content = Dump.FileContent.unreadable e) :
    f ∈ Dump.sortedFiles srcDir exclude walk ∧
    Dump.read_file_as_text f.content = r ∧
    Dump.fileBlock f ∈ (Dump.sortedFiles srcDir exclude walk).map Dump.fileBlock ∧
    g ∈ Dump.sortedFiles srcDir exclude walk ∧
    Dump.read_file_as_text g.content = "<<ERROR READING FILE: " ++ e ++ ">>" ∧
    Dump.fileBlock g ∈ (Dump.sortedFiles srcDir exclude walk).map Dump.fileBlock ∧
    (Dump.write_combined_output srcDir exclude outFile walk extras).stdoutLine
      = "Wrote " ++ toString (Dump.sortedFiles srcDir exclude walk).length
        ++ " in-tree files + " ++ toString extras.length ++ " extras into: "
        ++ outFile := by
  have hf : f ∈ Dump.sortedFiles srcDir exclude walk :=
    (mem_sortedFiles srcDir exclude walk f).mpr ⟨hfw, hfk⟩
  have hg : g ∈ Dump.sortedFiles srcDir exclude walk :=
    (mem_sortedFiles srcDir exclude walk g).mpr ⟨hgw, hgk⟩
  exact ⟨hf, by rw [hfc]; rfl, List.mem_map_of_mem _ hf,
    hg, by rw [hgc]; rfl, List.mem_map_of_mem _ hg,
    write_combined_output_stdout srcDir exclude outFile walk extras⟩

/-- Witness for c7_unreadable_files_still_dumped: a two-file tree whose files
are one invalid-UTF-8 file and one unreadable file; the summary still counts
both. -/
theorem c7_witness :
    (Dump.write_combined_output ["r"] ["r", "bin"] "/out.txt"
        [⟨[], "bad.bin", Dump.FileContent.invalidUtf8 "b�d"⟩,
         ⟨[], "locked.txt", Dump.FileContent.unreadable "Permission denied"⟩]
        []).stdoutLine
      = "Wrote 2 in-tree files + 0 extras into: /out.txt" := by
  have h := c7_unreadable_files_still_dumped ["r"] ["r", "bin"] "/out.txt"
    [⟨[], "bad.bin", Dump.FileContent.invalidUtf8 "b�d"⟩,
     ⟨[], "locked.txt", Dump.FileContent.unreadable "Permission denied"⟩] []
    ⟨[], "bad.bin", Dump.FileContent.invalidUtf8 "b�d"⟩
    ⟨[], "locked.txt", Dump.FileContent.unreadable "Permission denied"⟩
    "b�d" "Permission denied"
    (by decide) (by decide) rfl (by decide) (by decide) rfl
  rw [h.2.2.2.2.2.2]
  decide

/-- C8: every extra file is appended exactly once (one section per list
element, in list order), each under its own header naming its absolute path,
all of them after the complete in-tree portion of the output; the summary
line reports the in-tree file count and the extras count. -/
theorem c8_extras_appended (srcDir exclude : List String) (outFile : String)
    (walk : List Dump.FileEntry) (extras : List Dump.ExtraFile) :
    (Dump.write_combined_output srcDir exclude outFile walk extras).outText
      = (Dump.write_combined_output srcDir exclude outFile walk []).outText
        ++ (if extras.isEmpty then ""
            else Dump.extrasBanner
              ++ Dump.concatBlocks (extras.map Dump.extraBlock)) ∧
    (extras.map Dump.extraBlock).length = extras.length ∧
    (∀ x ∈ extras, Dump.extraBlock x
      = "\n" ++ Dump.eqBar ++ "\n" ++ "EXTRA FILE: " ++ Dump.pathString x.path
        ++ "\n" ++ Dump.eqBar ++ "\n\n" ++ Dump.read_file_as_text x.content
        ++ "\n") ∧
    (Dump.write_combined_output srcDir exclude outFile walk extras).stdoutLine
      = "Wrote " ++ toString (Dump.sortedFiles srcDir exclude walk).length
        ++ " in-tree files + " ++ toString extras.length ++ " extras into: "
        ++ outFile := by
  refine ⟨?_, by simp, fun x _ => rfl,
    write_combined_output_stdout srcDir exclude outFile walk extras⟩
  rw [write_combined_output_outText srcDir exclude outFile walk extras,
    write_combined_output_outText srcDir exclude outFile walk []]
  simp [String.append_assoc]

/-- Witness for c8_extras_appended: one in-tree file and one extra file give
the summary counting one of each. -/
theorem c8_witness :
    (Dump.write_combined_output ["r"] ["r", "bin"] "/out.txt"
        [⟨[], "a.txt", Dump.FileContent.text "A"⟩]
        [⟨["build.sh"], Dump.FileContent.text "T"⟩]).stdoutLine
      = "Wrote 1 in-tree files + 1 extras into: /out.txt" := by
  have h := c8_extras_appended ["r"] ["r", "bin"] "/out.txt"
    [⟨[], "a.txt", Dump.FileContent.text "A"⟩]
    [⟨["build.sh"], Dump.FileContent.text "T"⟩]
  rw [h.2.2.2]
  decide

/-- C10: traversal pruning drops every file beneath any directory whose name
merely starts with ".git" (such as ".github"), and for files not excluded by
the exclude path or the ".git" rule the junk skip applies exactly to the name
".DS_Store": a file of any other name, ".DS_Store2" included, is kept. -/
theorem c10_dotgit_pruning (srcDir exclude : List String)
    (walk : List Dump.FileEntry) (f : Dump.FileEntry) :
    ((∃ d ∈ f.dirs, Dump.startswith d ".git" = true) →
      f ∉ Dump.sortedFiles srcDir exclude walk) ∧
    (f ∈ walk → Dump.underPath exclude (srcDir ++ f.dirs) = false →
      (∀ d ∈ f.dirs, Dump.startswith d ".git" = false) →
      (f ∈ Dump.sortedFiles srcDir exclude walk ↔ f.name ≠ ".DS_Store")) ∧
    Dump.startswith ".github" ".git" = true ∧
    Dump.sortedFiles ["r"] ["r", "bin"]
        [⟨[".github"], "wf.yml", Dump.FileContent.text "W"⟩,
         ⟨[], ".DS_Store", Dump.FileContent.text "J"⟩,
         ⟨[], ".DS_Store2", Dump.FileContent.text "K"⟩]
      = [⟨[], ".DS_Store2", Dump.FileContent.text "K"⟩] := by
  refine ⟨?_, ?_, by decide, by decide⟩
  · rintro ⟨d, hd, hgit⟩ hmem
    have hk := ((mem_sortedFiles srcDir exclude walk f).mp hmem).2
    have := ((keptEntry_iff srcDir exclude f).mp hk).2.1 d hd
    rw [this] at hgit
    exact Bool.false_ne_true hgit
  · intro hw hu hg
    rw [mem_sortedFiles, keptEntry_iff]
    constructor
    · rintro ⟨-, -, -, hn⟩
      exact hn
    · intro hn
      exact ⟨hw, hu, hg, hn⟩

/-- Witness for c10_dotgit_pruning: a file under .github is pruned from a
concrete dump, while a file named .DS_Store2 in a concrete tree is kept. -/
theorem c10_witness :
    (⟨[".github"], "wf.yml", Dump.FileContent.text "W"⟩ : Dump.FileEntry)
        ∉ Dump.sortedFiles ["r"] ["r", "bin"]
          [⟨[".github"], "wf.yml", Dump.FileContent.text "W"⟩] ∧
    (⟨[], ".DS_Store2", Dump.FileContent.text "K"⟩ : Dump.FileEntry)
        ∈ Dump.sortedFiles ["r"] ["r", "bin"]
          [⟨[], ".DS_Store2", Dump.FileContent.text "K"⟩] := by
  constructor
  · exact (c10_dotgit_pruning ["r"] ["r", "bin"]
      [⟨[".github"], "wf.yml", Dump.FileContent.text "W"⟩]
      ⟨[".github"], "wf.yml", Dump.FileContent.text "W"⟩).1
      ⟨".github", by decide, by decide⟩
  · exact ((c10_dotgit_pruning ["r"] ["r", "bin"]
      [⟨[], ".DS_Store2", Dump.FileContent.text "K"⟩]
      ⟨[], ".DS_Store2", Dump.FileContent.text "K"⟩).2.1
      (by decide) (by decide) (by decide)).mpr (by decide)
